import Mathlib

/-!
Verification of the TradeLab FIX engine and allocation-calculation core.

This file gives a shallow embedding, in Lean 4, of the core functions of the
TradeLab repository and proves (or refutes) the behavioural claims made about
them:

* `AllocationEngine` (`calculate`, `calculateProRata`, `calculatePercent`,
  `calculateFixedQty`, `calculateAvgPrice`, `validate`) from the allocation
  engine module;
* `FixEngineAdapter` (`createMessage`, `calculateChecksum`, `parseMessage`,
  `buildNewOrderSingle`) from `server/fixEngine.ts`;
* `validateFIXMessage` and `REQUIRED_TAGS` from `server/fixValidation.ts`.

Modelling conventions:

* JavaScript numbers are modelled as exact rationals (`ℚ`); `Math.floor`
  becomes `floorQ` below.  Division by zero yields `0` in `ℚ` where
  JavaScript would produce `NaN`/`Infinity`; no claim in this file depends
  on a value produced by a division whose divisor can be zero (the engine
  guards its only such division, and the back-computed display `percent`
  field is not the subject of any claim).
* JavaScript strings on the FIX wire are modelled as `List Char`
  (`Str` below); `charCodeAt` becomes `Char.toNat`.  All characters that
  actually occur on the wire are ASCII, where the two coincide.
* A JavaScript `Record` (object) is modelled as the list of its assignments
  in program order; reading a key takes the value of its last assignment
  (`jsGet`), exactly as consecutive `obj[k] = v` assignments behave.
* Fallible code (`throw`) is modelled with `Except`.
-/

set_option maxRecDepth 8000

/-! ## Generic helpers for the JavaScript semantics used by the source -/

/-- Reading key `k` from an object built by a sequence of assignments:
the value of the last assignment to `k` wins, `none` when `k` was never
assigned. -/
def jsGet {κ ν : Type} [DecidableEq κ] (l : List (κ × ν)) (k : κ) : Option ν :=
  ((l.filter (fun p => p.1 = k)).getLast?).map (fun p => p.2)

/-- `Math.floor` on the rational model of JavaScript numbers. -/
def floorQ (q : ℚ) : ℚ := ((Rat.floor q : ℤ) : ℚ)

/-- `String.prototype.trim()`: strip leading and trailing whitespace. -/
def jsTrim (s : String) : String :=
  ⟨((s.data.dropWhile Char.isWhitespace).reverse.dropWhile Char.isWhitespace).reverse⟩

/-! ## Allocation engine (allocation engine module of the repository)

`AllocationAccount` carries the three optional numeric fields the engine
reads and writes (`qty`, `percent`, `netMoney`) plus the account id; the
`Order` model carries exactly the three fields the engine reads
(`cumQty`, `avgPx`, `price`).  `x || 0` on an optional number is
`Option.getD 0` (for these fields a present `0` and an absent value behave
identically under `|| 0`). -/

structure AllocationAccount where
  account : String
  qty : Option ℚ
  percent : Option ℚ
  netMoney : Option ℚ
deriving DecidableEq

structure Order where
  cumQty : ℚ
  avgPx : Option ℚ
  price : Option ℚ
deriving DecidableEq

structure AllocationCalculation where
  accounts : List AllocationAccount
  totalQty : ℚ
  totalNetMoney : ℚ
deriving DecidableEq

/-- `order.avgPx || order.price || 0`: JavaScript `||` falls through on `0`. -/
def Order.effectiveAvgPx (o : Order) : ℚ :=
  let a := o.avgPx.getD 0
  if a = 0 then o.price.getD 0 else a

/-- Sum of the (defaulted) `qty` fields of a list of accounts; this is both
the `totalWeight` of `calculateProRata` and the `computedTotalQty` reduce of
`calculate`. -/
def sumQty (l : List AllocationAccount) : ℚ := (l.map (fun a => a.qty.getD 0)).sum

/-- Sum of the (defaulted) `netMoney` fields. -/
def sumNetMoney (l : List AllocationAccount) : ℚ := (l.map (fun a => a.netMoney.getD 0)).sum

/-- Output account record pushed by the `calculateProRata` loop. -/
def proRataOut (totalQty avgPx : ℚ) (acc : AllocationAccount) (qty : ℚ) : AllocationAccount :=
  { account := acc.account, qty := some qty, percent := some (qty / totalQty * 100),
    netMoney := some (qty * avgPx) }

/-- The floor-rounded quantity a non-last account receives under ProRata. -/
def proRataQty (totalQty totalWeight : ℚ) (acc : AllocationAccount) : ℚ :=
  floorQ ((totalQty * acc.qty.getD 0) / totalWeight)

/-- The `for` loop of `calculateProRata`: every account except the last gets
`floor(totalQty * weight / totalWeight)`; the last (`i === length - 1`) gets
`totalQty - allocated`. -/
def AllocationEngine.calculateProRataLoop (totalQty avgPx totalWeight : ℚ) :
    List AllocationAccount → ℚ → List AllocationAccount
  | [], _ => []
  | [acc], allocated => [proRataOut totalQty avgPx acc (totalQty - allocated)]
  | acc :: b :: rest, allocated =>
    let qty := proRataQty totalQty totalWeight acc
    proRataOut totalQty avgPx acc qty ::
      AllocationEngine.calculateProRataLoop totalQty avgPx totalWeight (b :: rest)
        (allocated + qty)

/-- `AllocationEngine.calculateProRata`. -/
def AllocationEngine.calculateProRata (inputAccounts : List AllocationAccount)
    (totalQty avgPx : ℚ) : List AllocationAccount :=
  let totalWeight := sumQty inputAccounts
  if totalWeight = 0 then
    inputAccounts.map (fun acc => { acc with qty := some 0, netMoney := some 0 })
  else
    AllocationEngine.calculateProRataLoop totalQty avgPx totalWeight inputAccounts 0

/-- Output account record pushed by the `calculatePercent` loop. -/
def percentOut (avgPx : ℚ) (acc : AllocationAccount) (percent qty : ℚ) : AllocationAccount :=
  { account := acc.account, qty := some qty, percent := some percent,
    netMoney := some (qty * avgPx) }

/-- The floor-rounded quantity a non-last account receives under Percent. -/
def percentQty (totalQty : ℚ) (acc : AllocationAccount) : ℚ :=
  floorQ ((totalQty * acc.percent.getD 0) / 100)

/-- The `for` loop of `calculatePercent`. -/
def AllocationEngine.calculatePercentLoop (totalQty avgPx : ℚ) :
    List AllocationAccount → ℚ → List AllocationAccount
  | [], _ => []
  | [acc], allocated => [percentOut avgPx acc (acc.percent.getD 0) (totalQty - allocated)]
  | acc :: b :: rest, allocated =>
    let qty := percentQty totalQty acc
    percentOut avgPx acc (acc.percent.getD 0) qty ::
      AllocationEngine.calculatePercentLoop totalQty avgPx (b :: rest) (allocated + qty)

/-- `AllocationEngine.calculatePercent`. -/
def AllocationEngine.calculatePercent (inputAccounts : List AllocationAccount)
    (totalQty avgPx : ℚ) : List AllocationAccount :=
  AllocationEngine.calculatePercentLoop totalQty avgPx inputAccounts 0

/-- `AllocationEngine.calculateFixedQty`: pass-through quantities, no
`percent` field on the output records. -/
def AllocationEngine.calculateFixedQty (inputAccounts : List AllocationAccount)
    (avgPx : ℚ) : List AllocationAccount :=
  inputAccounts.map (fun acc =>
    { account := acc.account, qty := some (acc.qty.getD 0), percent := none,
      netMoney := some (acc.qty.getD 0 * avgPx) })

/-- `AllocationEngine.calculateAvgPrice`: the source body is identical to
`calculateFixedQty`. -/
def AllocationEngine.calculateAvgPrice (inputAccounts : List AllocationAccount)
    (avgPx : ℚ) : List AllocationAccount :=
  inputAccounts.map (fun acc =>
    { account := acc.account, qty := some (acc.qty.getD 0), percent := none,
      netMoney := some (acc.qty.getD 0 * avgPx) })

/-- The final `reduce`s and result record of `AllocationEngine.calculate`. -/
def mkCalculation (accounts : List AllocationAccount) : AllocationCalculation :=
  { accounts := accounts, totalQty := sumQty accounts, totalNetMoney := sumNetMoney accounts }

/-- `AllocationEngine.calculate`: dispatch on the allocation-type string
(`allocType` is a string at runtime; the `default` branch of the `switch`
throws, modelled with `Except.error`). -/
def AllocationEngine.calculate (allocType : String) (order : Order)
    (inputAccounts : List AllocationAccount) : Except String AllocationCalculation :=
  let avgPx := order.effectiveAvgPx
  let totalQty := order.cumQty
  match allocType with
  | "ProRata" =>
    .ok (mkCalculation (AllocationEngine.calculateProRata inputAccounts totalQty avgPx))
  | "Percent" =>
    .ok (mkCalculation (AllocationEngine.calculatePercent inputAccounts totalQty avgPx))
  | "FixedQty" =>
    .ok (mkCalculation (AllocationEngine.calculateFixedQty inputAccounts avgPx))
  | "AvgPrice" =>
    .ok (mkCalculation (AllocationEngine.calculateAvgPrice inputAccounts avgPx))
  | other => .error ("Unknown allocation type: " ++ other)

structure ValidationResult where
  valid : Bool
  errors : List String
deriving DecidableEq

/-- Sum of the (defaulted) `percent` fields, the `totalPercent` of
`AllocationEngine.validate`. -/
def sumPercent (l : List AllocationAccount) : ℚ := (l.map (fun a => a.percent.getD 0)).sum

/-- `AllocationEngine.validate`.  The numeric interpolations inside the two
quantity/percent error strings are display-only and elided here (the
`!acc.account` truthiness test is subsumed by the trim-emptiness test, since
the empty string trims to itself). -/
def AllocationEngine.validate (allocType : String) (accounts : List AllocationAccount)
    (totalQty : ℚ) : ValidationResult :=
  if accounts.isEmpty then
    { valid := false, errors := ["At least one account is required"] }
  else
    let emptyIdErrors := accounts.filterMap (fun acc =>
      if jsTrim acc.account = "" then some "Account ID cannot be empty" else none)
    let percentErrors :=
      if allocType = "Percent" then
        if |sumPercent accounts - 100| > 1 / 100 then
          ["Total percentage must equal 100%"]
        else []
      else []
    let overAllocErrors :=
      if allocType = "FixedQty" ∨ allocType = "AvgPrice" then
        if sumQty accounts > totalQty then
          ["Total allocated quantity exceeds order quantity"]
        else []
      else []
    let errors := emptyIdErrors ++ percentErrors ++ overAllocErrors
    { valid := errors.isEmpty, errors := errors }

/-! ## FIX tag codec (`server/fixEngine.ts`)

Wire strings are modelled as `List Char` (`Str`).  The `SOH` delimiter is
the control byte `\x01`. -/

/-- Wire strings. -/
abbrev Str : Type := List Char

/-- The `SOH` delimiter character of `server/fixEngine.ts`. -/
def SOH : Char := '\x01'

/-- Character list of a string literal. -/
def chars (s : String) : Str := s.data

/-- Decimal representation of a natural number, as wire characters
(the stringification a JavaScript template literal applies to the
non-negative integers that occur as `bodyLength` and checksum values). -/
def natData (n : Nat) : Str := (Nat.repr n).data

/-- `padStart(3, "0")`. -/
def padZero3 (l : Str) : Str := List.replicate (3 - l.length) '0' ++ l

structure FIXMessage where
  msgType : Str
  tags : List (Str × Str)
  rawFix : Str
deriving DecidableEq

/-- `FixEngineAdapter.calculateChecksum`: sum of all character codes modulo
256, rendered in decimal and zero-padded to 3 characters. -/
def FixEngineAdapter.calculateChecksum (message : Str) : Str :=
  padZero3 (natData ((message.map Char.toNat).sum % 256))

/-- The `body` local of `FixEngineAdapter.createMessage`: the type tag first,
then every entry of `tags` other than tag 35 as `tag=value` + `SOH`. -/
def FixEngineAdapter.fixBody (msgType : Str) (tags : List (Str × Str)) : Str :=
  chars "35=" ++ msgType ++ [SOH] ++
    (((tags.filter (fun p => p.1 ≠ chars "35")).map
      (fun p => p.1 ++ '=' :: p.2 ++ [SOH])).flatten)

/-- The `message` local of `FixEngineAdapter.createMessage` just before the
checksum is appended: BeginString tag, BodyLength tag, then the body. -/
def FixEngineAdapter.msgPrefix (msgType : Str) (tags : List (Str × Str)) : Str :=
  chars "8=FIX.4.4" ++ [SOH] ++ chars "9=" ++
    natData (FixEngineAdapter.fixBody msgType tags).length ++ [SOH] ++
    FixEngineAdapter.fixBody msgType tags

/-- `FixEngineAdapter.createMessage`: frame the tags, then append the
trailing `10=` checksum tag computed over everything before it.  The
returned `tags` record additionally holds tags 8, 9 and 10 (later
assignments, hence appended for `jsGet`). -/
def FixEngineAdapter.createMessage (msgType : Str) (tags : List (Str × Str)) : FIXMessage :=
  let message := FixEngineAdapter.msgPrefix msgType tags
  let checksum := FixEngineAdapter.calculateChecksum message
  { msgType := msgType,
    tags := tags ++
      [(chars "8", chars "FIX.4.4"),
       (chars "9", natData (FixEngineAdapter.fixBody msgType tags).length),
       (chars "10", checksum)],
    rawFix := message ++ chars "10=" ++ checksum ++ [SOH] }

/-- `rawFix.split(SOH)`: split a wire string at every occurrence of the
delimiter. -/
def splitSOH : Str → List Str
  | [] => [[]]
  | c :: cs =>
    if c = SOH then [] :: splitSOH cs
    else
      match splitSOH cs with
      | [] => [[c]]
      | s :: ss => (c :: s) :: ss

/-- One iteration of the `parseMessage` loop: `pair.indexOf("=") > 0`
requires an `=` at position ≥ 1; the tag is everything before the first
`=`, the value everything after it. -/
def FixEngineAdapter.parsePair (pair : Str) : Option (Str × Str) :=
  let tag := pair.takeWhile (fun c => c ≠ '=')
  match pair.dropWhile (fun c => c ≠ '=') with
  | [] => none
  | _ :: value => if tag = [] then none else some (tag, value)

/-- The assignments `tags[tag] = value` performed by
`FixEngineAdapter.parseMessage`, in loop order: empty segments are
discarded (`filter(Boolean)`), segments without an `=` at position ≥ 1 are
skipped. -/
def FixEngineAdapter.parseAssignments (rawFix : Str) : List (Str × Str) :=
  ((splitSOH rawFix).filter (fun s => s ≠ [])).filterMap FixEngineAdapter.parsePair

/-- `FixEngineAdapter.parseMessage`: the message type is the last value
assigned to tag 35, defaulting to `"D"`. -/
def FixEngineAdapter.parseMessage (rawFix : Str) : FIXMessage :=
  { msgType := (jsGet (FixEngineAdapter.parseAssignments rawFix) (chars "35")).getD (chars "D"),
    tags := FixEngineAdapter.parseAssignments rawFix,
    rawFix := rawFix }

/-- Recomputation of the checksum exactly as the specification words it:
"sum of the byte values of the entire message up to (but excluding) the
checksum tag, taken modulo 256 and zero-padded to exactly 3 digits".
Stated as its own definition so the claim compares the code's trailer
against the spec's formula. -/
def specChecksum (messageBeforeChecksum : Str) : Str :=
  padZero3 (natData ((messageBeforeChecksum.map Char.toNat).sum % 256))

/-! ## FIX message validation (`server/fixValidation.ts`)

Tag mappings reaching `validateFIXMessage` are modelled as assignment
lists with `String` keys and `String` values (the values this system
passes through are strings; `Number(v)` is modelled by `jsNumber`). -/

/-- `REQUIRED_TAGS`, with the `|| []` fallback for unknown message types. -/
def REQUIRED_TAGS (messageType : String) : List Nat :=
  match messageType with
  | "D" => [11, 55, 54, 38, 40, 60]
  | "8" => [11, 17, 150, 39, 55, 54, 32, 31, 151, 14, 6]
  | "F" => [11, 41, 55, 54]
  | "G" => [11, 41, 55, 54, 38]
  | "J" => [70, 71, 78, 55, 54, 6, 75]
  | "AS" => [755, 87, 6]
  | "AK" => [664, 666, 773, 665]
  | "P" => [70, 75]
  | _ => []

/-- Decimal-digit run value. -/
def digitsVal (l : Str) : Nat := l.foldl (fun acc c => 10 * acc + (c.toNat - 48)) 0

/-- Unsigned decimal literal (integer part, optional fraction).  Feeding
anything else — in particular any value containing a letter — yields
`none`. -/
def parseDecimal (l : Str) : Option ℚ :=
  let intPart := l.takeWhile Char.isDigit
  match l.dropWhile Char.isDigit with
  | [] => if intPart = [] then none else some (digitsVal intPart)
  | '.' :: frac =>
    if frac.all Char.isDigit ∧ (intPart ≠ [] ∨ frac ≠ []) then
      some ((digitsVal intPart : ℚ) + (digitsVal frac : ℚ) / (10 ^ frac.length))
    else none
  | _ => none

/-- JavaScript `Number()` coercion on a string value: whitespace is
trimmed, the empty string is `0`, an optionally signed decimal literal is
its value, and any other string is `NaN`, modelled as `none`.  (The hex /
exponent / `Infinity` literal forms JavaScript also accepts never occur as
FIX tag values in this system and are out of scope.) -/
def jsNumber (s : String) : Option ℚ :=
  let t := jsTrim s
  if t = "" then some 0
  else
    match t.data with
    | '-' :: rest => (parseDecimal rest).map (fun q => -q)
    | '+' :: rest => parseDecimal rest
    | l => parseDecimal l

/-- The required-tag pass of `validateFIXMessage`: one error naming each
required tag whose decimal key is absent from the mapping. -/
def requiredTagErrors (messageType : String) (tags : List (String × String)) : List String :=
  (REQUIRED_TAGS messageType).filterMap (fun tag =>
    if (jsGet tags (Nat.repr tag)).isSome then none
    else some ("Missing required tag " ++ Nat.repr tag))

/-- Side check: `tags["54"] &&` skips an absent or empty value. -/
def sideErrors (tags : List (String × String)) : List String :=
  match jsGet tags "54" with
  | some v =>
    if v ≠ "" ∧ v ∉ (["1", "2", "Buy", "Sell"] : List String) then
      ["Invalid Side value (tag 54)"]
    else []
  | none => []

/-- OrdType check, same truthiness guard. -/
def ordTypeErrors (tags : List (String × String)) : List String :=
  match jsGet tags "40" with
  | some v =>
    if v ≠ "" ∧
        v ∉ (["1", "2", "3", "4", "Market", "Limit", "Stop", "StopLimit"] : List String) then
      ["Invalid OrdType value (tag 40)"]
    else []
  | none => []

/-- Quantity checks: `Number(v) < 0` — false (hence no error) when
`Number(v)` is `NaN`. -/
def qtyErrors (tags : List (String × String)) : List String :=
  (["38", "32", "80", "14", "151"] : List String).filterMap (fun tag =>
    match jsGet tags tag with
    | some v =>
      match jsNumber v with
      | some q => if q < 0 then some ("Invalid quantity in tag " ++ tag) else none
      | none => none
    | none => none)

/-- Price checks: `Number(v) <= 0` — false (hence no error) when
`Number(v)` is `NaN`. -/
def priceErrors (tags : List (String × String)) : List String :=
  (["44", "31", "6"] : List String).filterMap (fun tag =>
    match jsGet tags tag with
    | some v =>
      match jsNumber v with
      | some q => if q ≤ 0 then some ("Invalid price in tag " ++ tag) else none
      | none => none
    | none => none)

/-- The value-check passes of `validateFIXMessage`, in source order. -/
def valueErrors (tags : List (String × String)) : List String :=
  sideErrors tags ++ ordTypeErrors tags ++ qtyErrors tags ++ priceErrors tags

/-- `validateFIXMessage`. -/
def validateFIXMessage (messageType : String) (tags : List (String × String)) :
    ValidationResult :=
  let errors := requiredTagErrors messageType tags ++ valueErrors tags
  { valid := errors.isEmpty, errors := errors }

/-! ## NewOrderSingle builder (`FixEngineAdapter.buildNewOrderSingle`)

Only the tag-assembly of the builder is modelled (the framing it then
delegates to `createMessage` adds tags 8, 9 and 10 only, which cannot
introduce or remove the price tag 44).  Tag values are strings or numbers,
and the current-time fallback for `transactTime` is passed explicitly as
`now`. -/

inductive OrderSide
  | Buy
  | Sell
deriving DecidableEq

inductive OrderType
  | Market
  | Limit
  | Stop
  | StopLimit
deriving DecidableEq

inductive AssetClass
  | Equity
  | FX
  | Futures
  | Options
  | FixedIncome
deriving DecidableEq

inductive TagValue
  | str (s : String)
  | num (q : ℚ)
deriving DecidableEq

structure NewOrderSingleParams where
  clOrdId : String
  symbol : String
  side : OrderSide
  quantity : ℚ
  orderType : OrderType
  price : Option ℚ
  transactTime : Option String
  assetClass : Option AssetClass
  securityType : Option String
  currencyPair : Option String
  maturityMonthYear : Option String
  strikePrice : Option ℚ
  optionType : Option String
  underlyingSymbol : Option String
deriving DecidableEq

/-- `mapSide`. -/
def mapSide : OrderSide → String
  | .Buy => "1"
  | .Sell => "2"

/-- `mapOrderType` (the `default: "1"` branch of the source is unreachable
for the closed `OrderType` union). -/
def mapOrderType : OrderType → String
  | .Market => "1"
  | .Limit => "2"
  | .Stop => "3"
  | .StopLimit => "4"

/-- A conditional assignment `if (params.x) tags[tag] = params.x` for an
optional string field: skipped when absent or empty (falsy). -/
def truthyStrTag (v : Option String) (tag : String) : List (String × TagValue) :=
  match v with
  | some s => if s = "" then [] else [(tag, TagValue.str s)]
  | none => []

/-- A conditional assignment `if (params.x) tags[tag] = params.x` for an
optional numeric field: skipped when absent or zero (falsy). -/
def truthyNumTag (v : Option ℚ) (tag : String) : List (String × TagValue) :=
  match v with
  | some q => if q = 0 then [] else [(tag, TagValue.num q)]
  | none => []

/-- The price assignment: `params.price !== undefined &&
params.orderType !== "Market"` (an explicit `price: 0` is still
assigned). -/
def priceTag (p : NewOrderSingleParams) : List (String × TagValue) :=
  match p.price with
  | some pr => if p.orderType = .Market then [] else [("44", TagValue.num pr)]
  | none => []

/-- The tag assignments of `FixEngineAdapter.buildNewOrderSingle`, in
program order (the base record, then price, security type, FX, futures and
options extras; the FX branch re-assigns tag 55). -/
def FixEngineAdapter.newOrderSingleTags (p : NewOrderSingleParams) (now : String) :
    List (String × TagValue) :=
  let transactTime := match p.transactTime with
    | some t => if t = "" then now else t
    | none => now
  [("11", TagValue.str p.clOrdId),
   ("55", TagValue.str p.symbol),
   ("54", TagValue.str (mapSide p.side)),
   ("38", TagValue.num p.quantity),
   ("40", TagValue.str (mapOrderType p.orderType)),
   ("60", TagValue.str transactTime)] ++
  priceTag p ++
  truthyStrTag p.securityType "167" ++
  (if p.assetClass = some .FX then truthyStrTag p.currencyPair "55" else []) ++
  (if p.assetClass = some .Futures then truthyStrTag p.maturityMonthYear "200" else []) ++
  (if p.assetClass = some .Options then
    truthyNumTag p.strikePrice "202" ++
    truthyStrTag p.optionType "201" ++
    truthyStrTag p.underlyingSymbol "311"
  else [])

/-! ## Helper lemmas: floor evaluation -/

theorem floorQ_eq_intFloor (q : ℚ) : floorQ q = ((⌊q⌋ : ℤ) : ℚ) := by
  unfold floorQ
  rw [Rat.floor_def', ← Rat.floor_def]

theorem floorQ_eval (q : ℚ) (k : ℤ) (h1 : (k : ℚ) ≤ q) (h2 : q < k + 1) :
    floorQ q = (k : ℚ) := by
  rw [floorQ_eq_intFloor]
  norm_cast
  rw [Int.floor_eq_iff]
  exact ⟨h1, by exact_mod_cast h2⟩

/-! ## Helper lemmas: the allocation loops -/

theorem calculatePercentLoop_qtys (T px : ℚ) :
    ∀ (l : List AllocationAccount) (alloc : ℚ), l ≠ [] →
      (AllocationEngine.calculatePercentLoop T px l alloc).map (fun a => a.qty.getD 0) =
        l.dropLast.map (percentQty T) ++
          [T - alloc - (l.dropLast.map (percentQty T)).sum] := by
  intro l
  induction l with
  | nil => intro alloc h; exact absurd rfl h
  | cons a t ih =>
    intro alloc _
    cases t with
    | nil =>
      simp [AllocationEngine.calculatePercentLoop, percentOut]
    | cons b t2 =>
      have h2 := ih (alloc + percentQty T a) (by simp)
      simp only [AllocationEngine.calculatePercentLoop, List.map_cons, h2, percentOut,
        List.dropLast_cons₂, List.sum_cons, Option.getD_some, List.cons_append]
      have harith : T - (alloc + percentQty T a) - (((b :: t2).dropLast.map (percentQty T)).sum) =
          T - alloc - (percentQty T a + ((b :: t2).dropLast.map (percentQty T)).sum) := by
        ring
      rw [harith]

theorem calculatePercentLoop_accounts (T px : ℚ) :
    ∀ (l : List AllocationAccount) (alloc : ℚ),
      (AllocationEngine.calculatePercentLoop T px l alloc).map (fun a => a.account) =
        l.map (fun a => a.account) := by
  intro l
  induction l with
  | nil => intro alloc; rfl
  | cons a t ih =>
    intro alloc
    cases t with
    | nil => simp [AllocationEngine.calculatePercentLoop, percentOut]
    | cons b t2 =>
      simp only [AllocationEngine.calculatePercentLoop, List.map_cons, percentOut]
      rw [ih]
      rfl

theorem calculatePercentLoop_netMoney (T px : ℚ) :
    ∀ (l : List AllocationAccount) (alloc : ℚ),
      (AllocationEngine.calculatePercentLoop T px l alloc).map (fun a => a.netMoney.getD 0) =
        (AllocationEngine.calculatePercentLoop T px l alloc).map
          (fun a => a.qty.getD 0 * px) := by
  intro l
  induction l with
  | nil => intro alloc; rfl
  | cons a t ih =>
    intro alloc
    cases t with
    | nil => simp [AllocationEngine.calculatePercentLoop, percentOut]
    | cons b t2 =>
      simp only [AllocationEngine.calculatePercentLoop, List.map_cons, percentOut,
        Option.getD_some]
      rw [ih]

theorem calculatePercentLoop_sum (T px : ℚ) (l : List AllocationAccount) (alloc : ℚ)
    (h : l ≠ []) :
    sumQty (AllocationEngine.calculatePercentLoop T px l alloc) = T - alloc := by
  unfold sumQty
  rw [calculatePercentLoop_qtys T px l alloc h]
  rw [List.sum_append, List.sum_cons, List.sum_nil]
  ring

theorem calculateProRataLoop_qtys (T px W : ℚ) :
    ∀ (l : List AllocationAccount) (alloc : ℚ), l ≠ [] →
      (AllocationEngine.calculateProRataLoop T px W l alloc).map (fun a => a.qty.getD 0) =
        l.dropLast.map (proRataQty T W) ++
          [T - alloc - (l.dropLast.map (proRataQty T W)).sum] := by
  intro l
  induction l with
  | nil => intro alloc h; exact absurd rfl h
  | cons a t ih =>
    intro alloc _
    cases t with
    | nil =>
      simp [AllocationEngine.calculateProRataLoop, proRataOut]
    | cons b t2 =>
      have h2 := ih (alloc + proRataQty T W a) (by simp)
      simp only [AllocationEngine.calculateProRataLoop, List.map_cons, h2, proRataOut,
        List.dropLast_cons₂, List.sum_cons, Option.getD_some, List.cons_append]
      have harith : T - (alloc + proRataQty T W a) -
          (((b :: t2).dropLast.map (proRataQty T W)).sum) =
          T - alloc - (proRataQty T W a + ((b :: t2).dropLast.map (proRataQty T W)).sum) := by
        ring
      rw [harith]

theorem calculateProRataLoop_accounts (T px W : ℚ) :
    ∀ (l : List AllocationAccount) (alloc : ℚ),
      (AllocationEngine.calculateProRataLoop T px W l alloc).map (fun a => a.account) =
        l.map (fun a => a.account) := by
  intro l
  induction l with
  | nil => intro alloc; rfl
  | cons a t ih =>
    intro alloc
    cases t with
    | nil => simp [AllocationEngine.calculateProRataLoop, proRataOut]
    | cons b t2 =>
      simp only [AllocationEngine.calculateProRataLoop, List.map_cons, proRataOut]
      rw [ih]
      rfl

theorem calculateProRataLoop_sum (T px W : ℚ) (l : List AllocationAccount) (alloc : ℚ)
    (h : l ≠ []) :
    sumQty (AllocationEngine.calculateProRataLoop T px W l alloc) = T - alloc := by
  unfold sumQty
  rw [calculateProRataLoop_qtys T px W l alloc h]
  rw [List.sum_append, List.sum_cons, List.sum_nil]
  ring

/-! ## Derived facts about `calculateProRata` / `calculatePercent` -/

theorem calculateProRata_of_weight_ne_zero (accounts : List AllocationAccount)
    (T px : ℚ) (hw : sumQty accounts ≠ 0) :
    AllocationEngine.calculateProRata accounts T px =
      AllocationEngine.calculateProRataLoop T px (sumQty accounts) accounts 0 := by
  unfold AllocationEngine.calculateProRata
  simp only [if_neg hw]

theorem calculateProRata_of_weight_zero (accounts : List AllocationAccount)
    (T px : ℚ) (hw : sumQty accounts = 0) :
    AllocationEngine.calculateProRata accounts T px =
      accounts.map (fun acc => { acc with qty := some 0, netMoney := some 0 }) := by
  simp [AllocationEngine.calculateProRata, hw]

/-- C1 (amended): for every ProRata allocation whose total input weight is
non-zero, and for every Percent allocation, over a non-empty account list,
`AllocationEngine.calculate` succeeds, preserves the account ids in input
order, and the output quantities sum exactly to `order.cumQty`, with the
last account receiving the total minus the floor-allocated quantities of
the preceding accounts.  (The unamended claim, which also covers ProRata
with all-zero weights, is refuted by `prorata_sum_counterexample`.) -/
theorem prorata_percent_sum_to_total (order : Order) (accounts : List AllocationAccount)
    (h : accounts ≠ []) :
    (sumQty accounts ≠ 0 →
      AllocationEngine.calculate "ProRata" order accounts =
        .ok (mkCalculation
          (AllocationEngine.calculateProRata accounts order.cumQty order.effectiveAvgPx)) ∧
      (AllocationEngine.calculateProRata accounts order.cumQty order.effectiveAvgPx).map
          (fun a => a.account) = accounts.map (fun a => a.account) ∧
      sumQty (AllocationEngine.calculateProRata accounts order.cumQty order.effectiveAvgPx) =
        order.cumQty ∧
      ((AllocationEngine.calculateProRata accounts order.cumQty order.effectiveAvgPx).map
          (fun a => a.qty.getD 0)).getLast? =
        some (order.cumQty -
          (accounts.dropLast.map (proRataQty order.cumQty (sumQty accounts))).sum)) ∧
    (AllocationEngine.calculate "Percent" order accounts =
        .ok (mkCalculation
          (AllocationEngine.calculatePercent accounts order.cumQty order.effectiveAvgPx)) ∧
      (AllocationEngine.calculatePercent accounts order.cumQty order.effectiveAvgPx).map
          (fun a => a.account) = accounts.map (fun a => a.account) ∧
      sumQty (AllocationEngine.calculatePercent accounts order.cumQty order.effectiveAvgPx) =
        order.cumQty ∧
      ((AllocationEngine.calculatePercent accounts order.cumQty order.effectiveAvgPx).map
          (fun a => a.qty.getD 0)).getLast? =
        some (order.cumQty - (accounts.dropLast.map (percentQty order.cumQty)).sum)) := by
  constructor
  · intro hw
    refine ⟨rfl, ?_, ?_, ?_⟩
    · rw [calculateProRata_of_weight_ne_zero accounts order.cumQty order.effectiveAvgPx hw]
      exact calculateProRataLoop_accounts _ _ _ accounts 0
    · rw [calculateProRata_of_weight_ne_zero accounts order.cumQty order.effectiveAvgPx hw,
        calculateProRataLoop_sum _ _ _ accounts 0 h]
      ring
    · rw [calculateProRata_of_weight_ne_zero accounts order.cumQty order.effectiveAvgPx hw,
        calculateProRataLoop_qtys _ _ _ accounts 0 h, List.getLast?_concat]
      congr 1
      ring
  · unfold AllocationEngine.calculatePercent
    refine ⟨rfl, calculatePercentLoop_accounts _ _ accounts 0, ?_, ?_⟩
    · rw [calculatePercentLoop_sum _ _ accounts 0 h]
      ring
    · rw [calculatePercentLoop_qtys _ _ accounts 0 h, List.getLast?_concat]
      congr 1
      ring

/-- C1 counterexample: a ProRata allocation over the non-empty account list
`[{account := "A", qty := 0}]` with `order.cumQty = 100` allocates total
quantity `0`, not `100`: the claimed sum property fails when every weight
is zero. -/
theorem prorata_sum_counterexample :
    AllocationEngine.calculate "ProRata" { cumQty := 100, avgPx := some 10, price := none }
        [{ account := "A", qty := some 0, percent := none, netMoney := none }] =
      .ok { accounts := [{ account := "A", qty := some 0, percent := none, netMoney := some 0 }],
            totalQty := 0, totalNetMoney := 0 } ∧
    (0 : ℚ) ≠ (100 : ℚ) := by
  constructor
  · have hz : sumQty [⟨"A", some 0, none, none⟩] = 0 := by
      simp [sumQty]
    have h1 : AllocationEngine.calculate "ProRata"
        { cumQty := 100, avgPx := some 10, price := none }
        [{ account := "A", qty := some 0, percent := none, netMoney := none }] =
        .ok (mkCalculation (AllocationEngine.calculateProRata
          [{ account := "A", qty := some 0, percent := none, netMoney := none }]
          ((⟨100, some 10, none⟩ : Order)).cumQty
          ((⟨100, some 10, none⟩ : Order)).effectiveAvgPx)) := rfl
    rw [h1, calculateProRata_of_weight_zero _ _ _ hz]
    simp [mkCalculation, sumQty, sumNetMoney]
  · norm_num

/-- C1 witness: `totalQty = 100` with ProRata weights `[1, 1, 1]` sums to
`100` and yields the quantities `[33, 33, 34]`, the last account absorbing
the remainder. -/
theorem prorata_percent_sum_to_total_witness :
    sumQty (AllocationEngine.calculateProRata
        [{ account := "A", qty := some 1, percent := none, netMoney := none },
         { account := "B", qty := some 1, percent := none, netMoney := none },
         { account := "C", qty := some 1, percent := none, netMoney := none }]
        ({ cumQty := 100, avgPx := some 10, price := none : Order }).cumQty
        ({ cumQty := 100, avgPx := some 10, price := none : Order }).effectiveAvgPx) =
      ({ cumQty := 100, avgPx := some 10, price := none : Order }).cumQty ∧
    (AllocationEngine.calculateProRata
        [{ account := "A", qty := some 1, percent := none, netMoney := none },
         { account := "B", qty := some 1, percent := none, netMoney := none },
         { account := "C", qty := some 1, percent := none, netMoney := none }]
        ({ cumQty := 100, avgPx := some 10, price := none : Order }).cumQty
        ({ cumQty := 100, avgPx := some 10, price := none : Order }).effectiveAvgPx).map
      (fun a => a.qty.getD 0) = [33, 33, 34] := by
  have hw : sumQty
      [⟨"A", some 1, none, none⟩, ⟨"B", some 1, none, none⟩,
       ⟨"C", some 1, none, none⟩] ≠ 0 := by
    simp [sumQty]
    norm_num
  constructor
  · exact ((prorata_percent_sum_to_total
      { cumQty := 100, avgPx := some 10, price := none }
      [{ account := "A", qty := some 1, percent := none, netMoney := none },
       { account := "B", qty := some 1, percent := none, netMoney := none },
       { account := "C", qty := some 1, percent := none, netMoney := none }]
      (by simp)).1 hw).2.2.1
  · have hf : floorQ ((100 : ℚ) / 3) = 33 := by
      simpa using floorQ_eval ((100 : ℚ) / 3) 33 (by norm_num) (by norm_num)
    rw [calculateProRata_of_weight_ne_zero _ _ _ hw]
    simp only [sumQty, List.map_cons, List.map_nil, Option.getD_some, List.sum_cons,
      List.sum_nil]
    norm_num [AllocationEngine.calculateProRataLoop, proRataOut, proRataQty, hf]

/-- C7: for every order and account list, `AllocationEngine.calculate` with
method `AvgPrice` returns exactly the same result as with `FixedQty`, and
both pass each account's input quantity through unchanged with net money
equal to quantity times the effective average price. -/
theorem avgprice_eq_fixedqty (order : Order) (accounts : List AllocationAccount) :
    AllocationEngine.calculate "AvgPrice" order accounts =
      AllocationEngine.calculate "FixedQty" order accounts ∧
    (AllocationEngine.calculateAvgPrice accounts order.effectiveAvgPx).map (fun a => a.qty) =
      accounts.map (fun a => some (a.qty.getD 0)) ∧
    (AllocationEngine.calculateAvgPrice accounts order.effectiveAvgPx).map
        (fun a => a.netMoney) =
      accounts.map (fun a => some (a.qty.getD 0 * order.effectiveAvgPx)) := by
  refine ⟨rfl, ?_, ?_⟩
  · simp only [AllocationEngine.calculateAvgPrice, List.map_map]
    rfl
  · simp only [AllocationEngine.calculateAvgPrice, List.map_map]
    rfl

/-- C8: `AllocationEngine.calculate` rejects (throws) exactly the
allocation-type strings outside the four known methods, and returns a
result for each of the four known methods. -/
theorem calculate_unknown_method_rejects (m : String) (order : Order)
    (accounts : List AllocationAccount) :
    (m ∉ (["ProRata", "Percent", "FixedQty", "AvgPrice"] : List String) →
      AllocationEngine.calculate m order accounts =
        .error ("Unknown allocation type: " ++ m)) ∧
    (m ∈ (["ProRata", "Percent", "FixedQty", "AvgPrice"] : List String) →
      (AllocationEngine.calculate m order accounts).isOk = true) := by
  constructor
  · intro hm
    simp only [List.mem_cons, List.not_mem_nil, or_false, not_or] at hm
    obtain ⟨h1, h2, h3, h4⟩ := hm
    unfold AllocationEngine.calculate
    split
    · exact absurd rfl h1
    · exact absurd rfl h2
    · exact absurd rfl h3
    · exact absurd rfl h4
    · rfl
  · intro hm
    simp only [List.mem_cons, List.not_mem_nil, or_false] at hm
    rcases hm with rfl | rfl | rfl | rfl <;> rfl

/-- C8 witness: an unknown method name is rejected with the thrown error
message, and a known method returns a result. -/
theorem calculate_unknown_method_rejects_witness :
    AllocationEngine.calculate "Bogus" ⟨0, none, none⟩ [] =
      .error ("Unknown allocation type: " ++ "Bogus") ∧
    (AllocationEngine.calculate "ProRata" ⟨0, none, none⟩ []).isOk = true := by
  exact ⟨(calculate_unknown_method_rejects "Bogus" ⟨0, none, none⟩ []).1 (by decide),
         (calculate_unknown_method_rejects "ProRata" ⟨0, none, none⟩ []).2 (by decide)⟩

/-- C9: a ProRata allocation in which every input account's weight is zero
(or absent) succeeds, gives every account quantity `0` and net money `0`,
and has `totalNetMoney = 0`; the `totalWeight === 0` guard means the
division is never executed. -/
theorem prorata_zero_weights_safe (order : Order) (accounts : List AllocationAccount)
    (h : ∀ a ∈ accounts, a.qty.getD 0 = 0) :
    AllocationEngine.calculate "ProRata" order accounts =
      .ok (mkCalculation
        (AllocationEngine.calculateProRata accounts order.cumQty order.effectiveAvgPx)) ∧
    (AllocationEngine.calculateProRata accounts order.cumQty order.effectiveAvgPx).map
        (fun a => a.qty) = List.replicate accounts.length (some 0) ∧
    (AllocationEngine.calculateProRata accounts order.cumQty order.effectiveAvgPx).map
        (fun a => a.netMoney) = List.replicate accounts.length (some 0) ∧
    (mkCalculation
        (AllocationEngine.calculateProRata accounts order.cumQty
          order.effectiveAvgPx)).totalNetMoney = 0 := by
  have hw : sumQty accounts = 0 := by
    unfold sumQty
    apply List.sum_eq_zero
    intro x hx
    obtain ⟨a, ha, rfl⟩ := List.mem_map.mp hx
    exact h a ha
  have hz := calculateProRata_of_weight_zero accounts order.cumQty order.effectiveAvgPx hw
  refine ⟨rfl, ?_, ?_, ?_⟩
  · rw [hz, List.map_map]
    exact List.map_const' accounts (some 0)
  · rw [hz, List.map_map]
    exact List.map_const' accounts (some 0)
  · show sumNetMoney _ = 0
    rw [hz]
    unfold sumNetMoney
    rw [List.map_map]
    apply List.sum_eq_zero
    intro x hx
    obtain ⟨a, ha, rfl⟩ := List.mem_map.mp hx
    rfl

/-- C9 witness: two accounts with weight `0` and an absent weight, order
quantity 100: both get quantity 0 and net money 0, and the total net money
is 0. -/
theorem prorata_zero_weights_safe_witness :
    (AllocationEngine.calculateProRata [⟨"A", some 0, none, none⟩, ⟨"B", none, some 50, none⟩]
        ((⟨100, some 10, none⟩ : Order)).cumQty
        ((⟨100, some 10, none⟩ : Order)).effectiveAvgPx).map (fun a => a.qty) =
      List.replicate 2 (some 0) ∧
    (mkCalculation (AllocationEngine.calculateProRata
        [⟨"A", some 0, none, none⟩, ⟨"B", none, some 50, none⟩]
        ((⟨100, some 10, none⟩ : Order)).cumQty
        ((⟨100, some 10, none⟩ : Order)).effectiveAvgPx)).totalNetMoney = 0 := by
  have h := prorata_zero_weights_safe ⟨100, some 10, none⟩
    [⟨"A", some 0, none, none⟩, ⟨"B", none, some 50, none⟩] (by simp)
  exact ⟨h.2.1, h.2.2.2⟩

/-- C10 (amended): the Percent path of `AllocationEngine.calculate` never
checks that the input percentages sum to 100: it always succeeds, and the
last account receives `order.cumQty` minus the floor-allocated quantities
of the preceding accounts with no clamping.  Consequently, whenever those
floor-allocated quantities exceed `order.cumQty`, the last account's
quantity is negative, and its net money is negative too provided the
effective average price is positive.  Only the separate
`AllocationEngine.validate` reports the percent-sum mismatch.  (The
unamended trigger condition — the preceding percentages merely summing to
more than 100 — is refuted by `percent_overallocation_counterexample`.) -/
theorem percent_overallocation_amended (order : Order) (accounts : List AllocationAccount)
    (h : accounts ≠ []) :
    AllocationEngine.calculate "Percent" order accounts =
      .ok (mkCalculation
        (AllocationEngine.calculatePercent accounts order.cumQty order.effectiveAvgPx)) ∧
    ((AllocationEngine.calculatePercent accounts order.cumQty order.effectiveAvgPx).map
        (fun a => a.qty.getD 0)).getLast? =
      some (order.cumQty - (accounts.dropLast.map (percentQty order.cumQty)).sum) ∧
    ((AllocationEngine.calculatePercent accounts order.cumQty order.effectiveAvgPx).map
        (fun a => a.netMoney.getD 0)).getLast? =
      some ((order.cumQty - (accounts.dropLast.map (percentQty order.cumQty)).sum) *
        order.effectiveAvgPx) ∧
    ((accounts.dropLast.map (percentQty order.cumQty)).sum > order.cumQty →
      order.cumQty - (accounts.dropLast.map (percentQty order.cumQty)).sum < 0 ∧
      (0 < order.effectiveAvgPx →
        (order.cumQty - (accounts.dropLast.map (percentQty order.cumQty)).sum) *
          order.effectiveAvgPx < 0)) ∧
    (|sumPercent accounts - 100| > 1 / 100 →
      (AllocationEngine.validate "Percent" accounts order.cumQty).valid = false) := by
  have hq := calculatePercentLoop_qtys order.cumQty order.effectiveAvgPx accounts 0 h
  refine ⟨rfl, ?_, ?_, ?_, ?_⟩
  · unfold AllocationEngine.calculatePercent
    rw [hq, List.getLast?_concat]
    congr 1
    ring
  · unfold AllocationEngine.calculatePercent
    have hn := calculatePercentLoop_netMoney order.cumQty order.effectiveAvgPx accounts 0
    have hmul : (AllocationEngine.calculatePercentLoop order.cumQty order.effectiveAvgPx
        accounts 0).map (fun a => a.netMoney.getD 0) =
        ((AllocationEngine.calculatePercentLoop order.cumQty order.effectiveAvgPx
          accounts 0).map (fun a => a.qty.getD 0)).map
          (fun x => x * order.effectiveAvgPx) := by
      rw [hn, List.map_map]
      rfl
    rw [hmul, hq, List.map_append]
    simp only [List.map_cons, List.map_nil]
    rw [List.getLast?_concat]
    congr 1
    ring
  · intro hgt
    refine ⟨by linarith, fun hpx => ?_⟩
    apply mul_neg_of_neg_of_pos
    · linarith
    · exact hpx
  · intro hp
    have hne : accounts.isEmpty = false := by
      cases accounts with
      | nil => exact absurd rfl h
      | cons a t => rfl
    simp [AllocationEngine.validate, hne]
    intro _
    simpa [one_div] using hp

/-- C10 counterexample: with `cumQty = 1` and percentages `[101, 1]`, the
preceding percentages sum to `101 > 100`, yet flooring makes the preceding
allocation `floor(1·101/100) = 1`, so the last account receives `0` — not
a negative quantity as the unamended claim states. -/
theorem percent_overallocation_counterexample :
    AllocationEngine.calculate "Percent" ⟨1, some 1, none⟩
        [⟨"A", none, some 101, none⟩, ⟨"B", none, some 1, none⟩] =
      .ok { accounts := [⟨"A", some 1, some 101, some 1⟩, ⟨"B", some 0, some 1, some 0⟩],
            totalQty := 1, totalNetMoney := 1 } ∧
    (101 : ℚ) > 100 ∧ ¬((0 : ℚ) < 0) := by
  refine ⟨?_, by norm_num, by norm_num⟩
  have hpx : ((⟨1, some 1, none⟩ : Order)).effectiveAvgPx = 1 := by
    simp [Order.effectiveAvgPx]
  have h1 : AllocationEngine.calculate "Percent" ⟨1, some 1, none⟩
      [⟨"A", none, some 101, none⟩, ⟨"B", none, some 1, none⟩] =
      .ok (mkCalculation (AllocationEngine.calculatePercent
        [⟨"A", none, some 101, none⟩, ⟨"B", none, some 1, none⟩]
        ((⟨1, some 1, none⟩ : Order)).cumQty
        ((⟨1, some 1, none⟩ : Order)).effectiveAvgPx)) := rfl
  rw [h1, hpx]
  have hf : floorQ ((101 : ℚ) / 100) = 1 := by
    simpa using floorQ_eval ((101 : ℚ) / 100) 1 (by norm_num) (by norm_num)
  simp only [AllocationEngine.calculatePercent, AllocationEngine.calculatePercentLoop,
    percentOut, percentQty, mkCalculation, sumQty, sumNetMoney, List.map_cons, List.map_nil,
    Option.getD_some, Option.getD_none, List.sum_cons, List.sum_nil]
  norm_num [hf]

/-- C10 witness: `cumQty = 100`, percentages `[150, 50]`: the preceding
floor allocation is 150, so the last account receives `-50 < 0`, while the
allocation validator flags the percent-sum mismatch. -/
theorem percent_overallocation_amended_witness :
    ((AllocationEngine.calculatePercent
        [⟨"A", none, some 150, none⟩, ⟨"B", none, some 50, none⟩]
        ((⟨100, some 10, none⟩ : Order)).cumQty
        ((⟨100, some 10, none⟩ : Order)).effectiveAvgPx).map
        (fun a => a.qty.getD 0)).getLast? =
      some (((⟨100, some 10, none⟩ : Order)).cumQty -
        ([⟨"A", none, some 150, none⟩, ⟨"B", none, some 50, none⟩].dropLast.map
          (percentQty ((⟨100, some 10, none⟩ : Order)).cumQty)).sum) ∧
    ((⟨100, some 10, none⟩ : Order)).cumQty -
        ([⟨"A", none, some 150, none⟩, ⟨"B", none, some 50, none⟩].dropLast.map
          (percentQty ((⟨100, some 10, none⟩ : Order)).cumQty)).sum < 0 ∧
    (AllocationEngine.validate "Percent"
        [⟨"A", none, some 150, none⟩, ⟨"B", none, some 50, none⟩]
        ((⟨100, some 10, none⟩ : Order)).cumQty).valid = false := by
  have hf : floorQ ((150 : ℚ)) = 150 := by
    simpa using floorQ_eval ((150 : ℚ)) 150 (by norm_num) (by norm_num)
  have hS : ([⟨"A", none, some 150, none⟩, ⟨"B", none, some 50, none⟩].dropLast.map
      (percentQty ((⟨100, some 10, none⟩ : Order)).cumQty)).sum >
      ((⟨100, some 10, none⟩ : Order)).cumQty := by
    simp [percentQty]
    norm_num [hf]
  have h := percent_overallocation_amended ⟨100, some 10, none⟩
    [⟨"A", none, some 150, none⟩, ⟨"B", none, some 50, none⟩] (by simp)
  refine ⟨h.2.1, (h.2.2.2.1 hS).1, h.2.2.2.2 ?_⟩
  simp [sumPercent]
  norm_num

/-! ## Checksum framing (C2) -/

theorem natData_length_le (n : Nat) (h : n < 1000) : (natData n).length ≤ 3 := by
  have h3 := Nat.repr_length n 3 (by norm_num) (by omega)
  have hdl : (Nat.repr n).data.length = (Nat.repr n).length := rfl
  unfold natData
  omega

/-- C2: every wire string produced by `createMessage` decomposes as the
pre-checksum framing followed by `10=`, then the checksum recomputed by the
specification's formula over exactly that pre-checksum prefix, then the
delimiter; and that checksum field is exactly 3 characters long. -/
theorem createMessage_checksum_correct (msgType : Str) (tags : List (Str × Str)) :
    (FixEngineAdapter.createMessage msgType tags).rawFix =
      FixEngineAdapter.msgPrefix msgType tags ++ chars "10=" ++
        specChecksum (FixEngineAdapter.msgPrefix msgType tags) ++ [SOH] ∧
    (specChecksum (FixEngineAdapter.msgPrefix msgType tags)).length = 3 := by
  constructor
  · show FixEngineAdapter.msgPrefix msgType tags ++ chars "10=" ++
      FixEngineAdapter.calculateChecksum (FixEngineAdapter.msgPrefix msgType tags) ++ [SOH] = _
    rfl
  · unfold specChecksum padZero3
    rw [List.length_append, List.length_replicate]
    have hmod : ((FixEngineAdapter.msgPrefix msgType tags).map Char.toNat).sum % 256 < 1000 := by
      have := Nat.mod_lt (((FixEngineAdapter.msgPrefix msgType tags).map Char.toNat).sum)
        (show 0 < 256 by norm_num)
      omega
    have := natData_length_le _ hmod
    omega

/-! ## Split/parse lemmas for the decode side (C3) -/

theorem splitSOH_ne_nil (l : Str) : splitSOH l ≠ [] := by
  induction l with
  | nil => simp [splitSOH]
  | cons c cs ih =>
    simp only [splitSOH]
    split
    · simp
    · split
      · simp
      · simp

theorem splitSOH_cons_soh (cs : Str) : splitSOH (SOH :: cs) = [] :: splitSOH cs := by
  conv_lhs => unfold splitSOH
  rw [if_pos rfl]

theorem splitSOH_cons_ne (c : Char) (cs : Str) (hc : c ≠ SOH) :
    splitSOH (c :: cs) =
      match splitSOH cs with
      | [] => [[c]]
      | s :: ss => (c :: s) :: ss := by
  conv_lhs => unfold splitSOH
  rw [if_neg hc]

theorem splitSOH_append (x y : Str) :
    splitSOH (x ++ SOH :: y) = splitSOH x ++ splitSOH y := by
  induction x with
  | nil => simp [splitSOH_cons_soh, splitSOH]
  | cons c cs ih =>
    by_cases hc : c = SOH
    · subst hc
      rw [List.cons_append, splitSOH_cons_soh, splitSOH_cons_soh, ih]
      rfl
    · obtain ⟨s, ss, hss⟩ : ∃ s ss, splitSOH cs = s :: ss := by
        rcases hcs : splitSOH cs with _ | ⟨s, ss⟩
        · exact absurd hcs (splitSOH_ne_nil cs)
        · exact ⟨s, ss, rfl⟩
      rw [List.cons_append, splitSOH_cons_ne c _ hc, splitSOH_cons_ne c cs hc, ih, hss]
      simp

theorem splitSOH_no_soh (x : Str) (hx : SOH ∉ x) : splitSOH x = [x] := by
  induction x with
  | nil => rfl
  | cons c cs ih =>
    have hc : c ≠ SOH := fun hcc => hx (hcc ▸ List.mem_cons_self c cs)
    have hcs : SOH ∉ cs := fun hmem => hx (List.mem_cons_of_mem c hmem)
    simp only [splitSOH, if_neg hc, ih hcs]

theorem parseAssignments_split (x y : Str) :
    FixEngineAdapter.parseAssignments (x ++ SOH :: y) =
      FixEngineAdapter.parseAssignments x ++ FixEngineAdapter.parseAssignments y := by
  unfold FixEngineAdapter.parseAssignments
  rw [splitSOH_append, List.filter_append, List.filterMap_append]

theorem takeWhile_ne_eq (t v : Str) (heq : '=' ∉ t) :
    (t ++ '=' :: v).takeWhile (fun c => c ≠ '=') = t := by
  induction t with
  | nil => simp [List.takeWhile]
  | cons c cs ih =>
    have hc : c ≠ '=' := fun hcc => heq (hcc ▸ List.mem_cons_self c cs)
    have hcs : '=' ∉ cs := fun hmem => heq (List.mem_cons_of_mem c hmem)
    rw [List.cons_append,
      @List.takeWhile_cons_of_pos Char (fun x => decide (x ≠ '=')) c (cs ++ '=' :: v)
        (decide_eq_true hc),
      ih hcs]

theorem dropWhile_ne_eq (t v : Str) (heq : '=' ∉ t) :
    (t ++ '=' :: v).dropWhile (fun c => c ≠ '=') = '=' :: v := by
  induction t with
  | nil => simp [List.dropWhile]
  | cons c cs ih =>
    have hc : c ≠ '=' := fun hcc => heq (hcc ▸ List.mem_cons_self c cs)
    have hcs : '=' ∉ cs := fun hmem => heq (List.mem_cons_of_mem c hmem)
    rw [List.cons_append,
      @List.dropWhile_cons_of_pos Char (fun x => decide (x ≠ '=')) c (cs ++ '=' :: v)
        (decide_eq_true hc),
      ih hcs]

theorem parsePair_of_wf (t v : Str) (ht : t ≠ []) (heq : '=' ∉ t) :
    FixEngineAdapter.parsePair (t ++ '=' :: v) = some (t, v) := by
  unfold FixEngineAdapter.parsePair
  rw [takeWhile_ne_eq t v heq, dropWhile_ne_eq t v heq]
  simp [ht]

theorem parseAssignments_no_soh_pair (t v : Str) (ht : t ≠ []) (hts : SOH ∉ t)
    (heq : '=' ∉ t) (hvs : SOH ∉ v) :
    FixEngineAdapter.parseAssignments (t ++ '=' :: v) = [(t, v)] := by
  unfold FixEngineAdapter.parseAssignments
  have hsoh : SOH ∉ t ++ '=' :: v := by
    intro hmem
    rcases List.mem_append.mp hmem with hmem | hmem
    · exact hts hmem
    · rcases List.mem_cons.mp hmem with hmem | hmem
      · exact absurd hmem (by decide)
      · exact hvs hmem
  rw [splitSOH_no_soh _ hsoh]
  have hne : t ++ '=' :: v ≠ [] := by
    cases t <;> simp
  simp [hne, parsePair_of_wf t v ht heq]

theorem parseAssignments_pieces (l : List (Str × Str)) (rest : Str)
    (hl : ∀ p ∈ l, p.1 ≠ [] ∧ SOH ∉ p.1 ∧ '=' ∉ p.1 ∧ SOH ∉ p.2) :
    FixEngineAdapter.parseAssignments
        ((l.map (fun p => p.1 ++ '=' :: p.2 ++ [SOH])).flatten ++ rest) =
      l ++ FixEngineAdapter.parseAssignments rest := by
  induction l with
  | nil => simp
  | cons p t ih =>
    obtain ⟨h1, h2, h3, h4⟩ := hl p (List.mem_cons_self p t)
    have hshape : ((p :: t).map (fun p => p.1 ++ '=' :: p.2 ++ [SOH])).flatten ++ rest =
        (p.1 ++ '=' :: p.2) ++ SOH :: ((t.map (fun p => p.1 ++ '=' :: p.2 ++ [SOH])).flatten ++ rest) := by
      simp
    rw [hshape, parseAssignments_split,
      parseAssignments_no_soh_pair p.1 p.2 h1 h2 h3 h4,
      ih (fun q hq => hl q (List.mem_cons_of_mem p hq))]
    rfl

theorem parseAssignments_nil : FixEngineAdapter.parseAssignments [] = [] := rfl

theorem digitChar_ne_soh : ∀ (k : Nat), Nat.digitChar k ≠ SOH
  | 0 => by decide
  | 1 => by decide
  | 2 => by decide
  | 3 => by decide
  | 4 => by decide
  | 5 => by decide
  | 6 => by decide
  | 7 => by decide
  | 8 => by decide
  | 9 => by decide
  | 10 => by decide
  | 11 => by decide
  | 12 => by decide
  | 13 => by decide
  | 14 => by decide
  | 15 => by decide
  | (n + 16) => by
    have h : Nat.digitChar (n + 16) = '*' := rfl
    rw [h]
    decide

theorem toDigitsCore_no_soh : ∀ (fuel n : Nat) (acc : List Char),
    (∀ c ∈ acc, c ≠ SOH) → ∀ c ∈ Nat.toDigitsCore 10 fuel n acc, c ≠ SOH := by
  intro fuel
  induction fuel with
  | zero =>
    intro n acc hacc c hc
    simp only [Nat.toDigitsCore] at hc
    exact hacc c hc
  | succ f ih =>
    intro n acc hacc
    have hcons : ∀ c ∈ Nat.digitChar (n % 10) :: acc, c ≠ SOH := by
      intro c hc
      rcases List.mem_cons.mp hc with hc | hc
      · subst hc; exact digitChar_ne_soh _
      · exact hacc c hc
    intro c hc
    simp only [Nat.toDigitsCore] at hc
    split at hc
    · exact hcons c hc
    · exact ih _ _ hcons c hc

theorem natData_no_soh (n : Nat) : SOH ∉ natData n := by
  intro hc
  simp only [natData, Nat.repr, Nat.toDigits, List.asString] at hc
  exact toDigitsCore_no_soh _ _ [] (by simp) SOH hc rfl

theorem padZero3_no_soh (l : Str) (hl : SOH ∉ l) : SOH ∉ padZero3 l := by
  intro hmem
  rcases List.mem_append.mp hmem with hmem | hmem
  · have := List.eq_of_mem_replicate hmem
    exact absurd this (by decide)
  · exact hl hmem

theorem calculateChecksum_no_soh (message : Str) :
    SOH ∉ FixEngineAdapter.calculateChecksum message :=
  padZero3_no_soh _ (natData_no_soh _)

/-! ## jsGet lemmas -/

theorem jsGet_append {κ ν : Type} [DecidableEq κ] (l1 l2 : List (κ × ν)) (k : κ) :
    jsGet (l1 ++ l2) k = (jsGet l2 k).or (jsGet l1 k) := by
  unfold jsGet
  rw [List.filter_append, List.getLast?_append]
  cases (l2.filter (fun p => p.1 = k)).getLast? <;> simp

theorem jsGet_of_nodup {κ ν : Type} [DecidableEq κ] (l : List (κ × ν))
    (hnd : (l.map Prod.fst).Nodup) (t : κ) (v : ν) (h : (t, v) ∈ l) :
    jsGet l t = some v := by
  induction l with
  | nil => cases h
  | cons p rest ih =>
    rw [List.map_cons, List.nodup_cons] at hnd
    rcases List.mem_cons.mp h with heq | hmem
    · subst heq
      have hfil : rest.filter (fun q => q.1 = t) = [] := by
        rw [List.filter_eq_nil_iff]
        intro q hq
        simp only [decide_eq_true_eq]
        intro hq1
        have hmem2 : q.1 ∈ rest.map Prod.fst := List.mem_map_of_mem Prod.fst hq
        rw [hq1] at hmem2
        exact hnd.1 hmem2
      unfold jsGet
      rw [List.filter_cons, if_pos (by simp), hfil]
      rfl
    · have hne : (decide (p.1 = t)) = false := by
        simp only [decide_eq_false_iff_not]
        intro hpt
        apply hnd.1
        have := List.mem_map_of_mem Prod.fst hmem
        simpa [hpt] using this
      unfold jsGet
      rw [List.filter_cons, if_neg (by simp [hne])]
      exact ih hnd.2 hmem

/-- C3 (amended): decoding the wire string produced by `createMessage`
recovers every supplied tag value, provided the tag mapping is a
well-formed FIX tag mapping: distinct keys, each key a non-empty string
free of the delimiter and of `=` and different from the specially placed
type tag `35` and from the trailer tag `10`, and each value free of the
delimiter.  (The unamended claim, quantified over arbitrary values, is
refuted by `parse_create_roundtrip_counterexample`, where a value
containing the delimiter byte is truncated by decoding.) -/
theorem parse_create_roundtrip (mt : Str) (tags : List (Str × Str)) (t v : Str)
    (hnd : (tags.map Prod.fst).Nodup)
    (hwf : ∀ p ∈ tags, p.1 ≠ [] ∧ SOH ∉ p.1 ∧ '=' ∉ p.1 ∧ SOH ∉ p.2 ∧
      p.1 ≠ chars "35" ∧ p.1 ≠ chars "10")
    (hmem : (t, v) ∈ tags) :
    jsGet (FixEngineAdapter.parseMessage
      (FixEngineAdapter.createMessage mt tags).rawFix).tags t = some v := by
  have hfilter : tags.filter (fun p => p.1 ≠ chars "35") = tags := by
    rw [List.filter_eq_self]
    intro p hp
    simp [(hwf p hp).2.2.2.2.1]
  obtain ⟨K, hK⟩ : ∃ K, FixEngineAdapter.calculateChecksum
      (FixEngineAdapter.msgPrefix mt tags) = K := ⟨_, rfl⟩
  obtain ⟨L, hL⟩ : ∃ L, natData (FixEngineAdapter.fixBody mt tags).length = L := ⟨_, rfl⟩
  have hKsoh : SOH ∉ K := hK ▸ calculateChecksum_no_soh (FixEngineAdapter.msgPrefix mt tags)
  have hform : (FixEngineAdapter.createMessage mt tags).rawFix =
      chars "8=FIX.4.4" ++ SOH ::
        ((chars "9=" ++ L) ++ SOH ::
          ((chars "35=" ++ mt) ++ SOH ::
            ((tags.map (fun p => p.1 ++ '=' :: p.2 ++ [SOH])).flatten ++
              ((chars "10=" ++ K) ++ SOH :: ([] : Str))))) := by
    show FixEngineAdapter.msgPrefix mt tags ++ chars "10=" ++
      FixEngineAdapter.calculateChecksum (FixEngineAdapter.msgPrefix mt tags) ++ [SOH] = _
    rw [hK, FixEngineAdapter.msgPrefix, hL, FixEngineAdapter.fixBody, hfilter]
    simp [List.append_assoc]
  have htrailer : FixEngineAdapter.parseAssignments ((chars "10=" ++ K) ++ SOH :: ([] : Str)) =
      [(chars "10", K)] := by
    rw [parseAssignments_split, parseAssignments_nil, List.append_nil]
    have hten : chars "10=" ++ K = chars "10" ++ '=' :: K := rfl
    rw [hten]
    exact parseAssignments_no_soh_pair _ _ (by decide) (by decide) (by decide) hKsoh
  have hpa : FixEngineAdapter.parseAssignments
      (FixEngineAdapter.createMessage mt tags).rawFix =
      FixEngineAdapter.parseAssignments (chars "8=FIX.4.4") ++
        (FixEngineAdapter.parseAssignments (chars "9=" ++ L) ++
          (FixEngineAdapter.parseAssignments (chars "35=" ++ mt) ++
            (tags ++ [(chars "10", K)]))) := by
    rw [hform, parseAssignments_split, parseAssignments_split, parseAssignments_split,
      parseAssignments_pieces tags _
        (fun p hp => ⟨(hwf p hp).1, (hwf p hp).2.1, (hwf p hp).2.2.1, (hwf p hp).2.2.2.1⟩),
      htrailer]
  show jsGet (FixEngineAdapter.parseAssignments
    (FixEngineAdapter.createMessage mt tags).rawFix) t = some v
  rw [hpa]
  have h10 : jsGet [(chars "10", K)] t = none := by
    have hne10 : chars "10" ≠ t := fun hx => (hwf (t, v) hmem).2.2.2.2.2 hx.symm
    simp [jsGet, hne10]
  simp only [jsGet_append, h10, Option.none_or,
    jsGet_of_nodup tags hnd t v hmem, Option.or_some]

/-- C3 counterexample: a tag value containing the delimiter byte is not
recovered by decode after encode — the supplied value `a\x01b` for tag 11
comes back as just `a`. -/
theorem parse_create_roundtrip_counterexample :
    jsGet (FixEngineAdapter.parseMessage
        (FixEngineAdapter.createMessage (chars "D")
          [(chars "11", chars "a" ++ SOH :: chars "b")]).rawFix).tags (chars "11") =
      some (chars "a") ∧
    chars "a" ≠ chars "a" ++ SOH :: chars "b" := by
  constructor
  · decide
  · decide

/-- C3 witness: a two-tag NewOrderSingle-style mapping is recovered
exactly. -/
theorem parse_create_roundtrip_witness :
    jsGet (FixEngineAdapter.parseMessage
        (FixEngineAdapter.createMessage (chars "D")
          [(chars "11", chars "ORD1"), (chars "55", chars "IBM")]).rawFix).tags (chars "11") =
      some (chars "ORD1") := by
  exact parse_create_roundtrip (chars "D")
    [(chars "11", chars "ORD1"), (chars "55", chars "IBM")] (chars "11") (chars "ORD1")
    (by decide) (by decide) (by decide)

/-! ## FIX message validation (C4, C5) -/

theorem filterMap_missing (tags : List (String × String)) (l : List Nat) :
    l.filterMap (fun tag => if (jsGet tags (Nat.repr tag)).isSome then none
      else some ("Missing required tag " ++ Nat.repr tag)) =
    (l.filter (fun tag => (jsGet tags (Nat.repr tag)).isNone)).map
      (fun tag => "Missing required tag " ++ Nat.repr tag) := by
  induction l with
  | nil => rfl
  | cons a l ih =>
    rw [List.filterMap_cons, List.filter_cons]
    cases h : jsGet tags (Nat.repr a) with
    | some w => simp [h, ih]
    | none => simp [h, ih]

/-- C4: whenever exactly one required tag of the message type's fixed list
is absent from the mapping, `validateFIXMessage` produces exactly one
missing-tag error naming that tag, placed before the independent
value-check errors, and its `valid` flag is true exactly when the error
list is empty. -/
theorem validateFIXMessage_missing_tag (mt : String) (tags : List (String × String))
    (t0 : Nat)
    (h : (REQUIRED_TAGS mt).filter (fun tag => (jsGet tags (Nat.repr tag)).isNone) = [t0]) :
    (validateFIXMessage mt tags).errors =
      ("Missing required tag " ++ Nat.repr t0) :: valueErrors tags ∧
    ((validateFIXMessage mt tags).valid = true ↔ (validateFIXMessage mt tags).errors = []) := by
  have herr : (validateFIXMessage mt tags).errors =
      requiredTagErrors mt tags ++ valueErrors tags := rfl
  constructor
  · rw [herr]
    unfold requiredTagErrors
    rw [filterMap_missing tags (REQUIRED_TAGS mt), h]
    rfl
  · have hvalid : (validateFIXMessage mt tags).valid =
        (requiredTagErrors mt tags ++ valueErrors tags).isEmpty := rfl
    rw [hvalid, herr]
    cases requiredTagErrors mt tags ++ valueErrors tags <;> simp

/-- C4 witness: a NewOrderSingle mapping missing tag 38 and carrying the
invalid Side value "9" yields exactly the two errors, the missing-tag error
first, and `valid` is false. -/
theorem validateFIXMessage_missing_tag_witness :
    (validateFIXMessage "D"
        [("11", "x"), ("55", "IBM"), ("54", "9"), ("40", "1"), ("60", "T")]).errors =
      ["Missing required tag 38", "Invalid Side value (tag 54)"] ∧
    (validateFIXMessage "D"
        [("11", "x"), ("55", "IBM"), ("54", "9"), ("40", "1"), ("60", "T")]).valid = false := by
  have h := validateFIXMessage_missing_tag "D"
    [("11", "x"), ("55", "IBM"), ("54", "9"), ("40", "1"), ("60", "T")] 38 (by decide)
  constructor
  · rw [h.1]
    decide
  · decide

/-- C5: the code under test silently passes a non-numeric quantity value —
with tag 38 holding "abc" (and all other values valid), `Number("abc")` is
`NaN`, `NaN < 0` is false, so no error is reported and the message
validates, contradicting the specified behaviour that a non-numeric value
in a numeric check must fail validation. -/
theorem validateFIXMessage_nonnumeric_silent_pass :
    validateFIXMessage "D"
        [("11", "x"), ("55", "IBM"), ("54", "1"), ("38", "abc"), ("40", "1"), ("60", "T")] =
      { valid := true, errors := [] } := by
  decide

/-! ## NewOrderSingle price tag (C6) -/

theorem truthyStrTag_fst (v : Option String) (tag k : String)
    (h : k ∈ (truthyStrTag v tag).map Prod.fst) : k = tag := by
  cases v with
  | none => simp [truthyStrTag] at h
  | some s =>
    by_cases hs : s = "" <;> simp [truthyStrTag, hs] at h
    exact h

theorem truthyNumTag_fst (v : Option ℚ) (tag k : String)
    (h : k ∈ (truthyNumTag v tag).map Prod.fst) : k = tag := by
  cases v with
  | none => simp [truthyNumTag] at h
  | some q =>
    by_cases hq : q = 0 <;> simp [truthyNumTag, hq] at h
    exact h

theorem ite_truthyStrTag_no44 (c : Prop) [Decidable c] (v : Option String) (tag : String)
    (htag : tag ≠ "44") :
    "44" ∉ ((if c then truthyStrTag v tag else []).map Prod.fst) := by
  intro hmem
  split at hmem
  · exact htag (truthyStrTag_fst v tag "44" hmem).symm
  · simp at hmem

theorem priceTag_market (p : NewOrderSingleParams) (hM : p.orderType = .Market) :
    priceTag p = [] := by
  unfold priceTag
  cases p.price with
  | none => rfl
  | some pr => simp [hM]

theorem priceTag_present (p : NewOrderSingleParams) (hNM : p.orderType ≠ .Market)
    (hP : p.price.isSome = true) :
    (priceTag p).map Prod.fst = ["44"] := by
  unfold priceTag
  cases hp : p.price with
  | none => rw [hp] at hP; simp at hP
  | some pr => simp [hNM]

theorem newOrderSingle_mem44_price (p : NewOrderSingleParams) (now : String)
    (hmem : "44" ∈ (FixEngineAdapter.newOrderSingleTags p now).map Prod.fst) :
    "44" ∈ (priceTag p).map Prod.fst := by
  rw [FixEngineAdapter.newOrderSingleTags] at hmem
  simp only [List.map_append, List.mem_append, or_assoc] at hmem
  rcases hmem with h | h | h | h | h | h
  · simp at h
  · exact h
  · exact absurd (truthyStrTag_fst _ _ _ h) (by decide)
  · exact absurd h (ite_truthyStrTag_no44 _ _ _ (by decide))
  · exact absurd h (ite_truthyStrTag_no44 _ _ _ (by decide))
  · split at h
    · simp only [List.map_append, List.mem_append, or_assoc] at h
      rcases h with h | h | h
      · exact absurd (truthyNumTag_fst _ _ _ h) (by decide)
      · exact absurd (truthyStrTag_fst _ _ _ h) (by decide)
      · exact absurd (truthyStrTag_fst _ _ _ h) (by decide)
    · simp at h

theorem priceTag_mem44 (p : NewOrderSingleParams)
    (h : "44" ∈ (priceTag p).map Prod.fst) :
    p.price.isSome = true ∧ p.orderType ≠ OrderType.Market := by
  unfold priceTag at h
  cases hp : p.price with
  | none => rw [hp] at h; simp at h
  | some pr =>
    rw [hp] at h
    refine ⟨rfl, ?_⟩
    intro hM
    simp [hM] at h

/-- C6 (amended): the tag assembly of `buildNewOrderSingle` contains the
price tag 44 exactly when the caller supplies a price and the order type
is not Market.  In particular a Market order never carries tag 44 (even
with a supplied price), and a Limit/Stop/StopLimit order carries tag 44
exactly when a price is supplied.  (The unamended claim — that
Limit/Stop/StopLimit orders always carry tag 44 — fails for an absent
price; see `newOrderSingle_price_tag_counterexample`.) -/
theorem newOrderSingle_price_tag (p : NewOrderSingleParams) (now : String) :
    "44" ∈ (FixEngineAdapter.newOrderSingleTags p now).map Prod.fst ↔
      p.price.isSome = true ∧ p.orderType ≠ OrderType.Market := by
  constructor
  · intro hmem
    exact priceTag_mem44 p (newOrderSingle_mem44_price p now hmem)
  · rintro ⟨hP, hNM⟩
    rw [FixEngineAdapter.newOrderSingleTags]
    simp only [List.map_append, List.mem_append]
    have h44 : "44" ∈ (priceTag p).map Prod.fst := by
      rw [priceTag_present p hNM hP]
      simp
    tauto

/-- C6 counterexample: a Limit order built without a price produces a tag
mapping with no price tag 44, so Limit/Stop/StopLimit orders do not always
carry a price tag. -/
theorem newOrderSingle_price_tag_counterexample :
    (⟨"C1", "IBM", .Buy, 100, .Limit, none, some "T", none, none, none, none, none,
      none, none⟩ : NewOrderSingleParams).orderType = .Limit ∧
    "44" ∉ (FixEngineAdapter.newOrderSingleTags
      ⟨"C1", "IBM", .Buy, 100, .Limit, none, some "T", none, none, none, none, none,
        none, none⟩ "TT").map Prod.fst := by
  constructor
  · rfl
  · decide

/-- C6 witness: a Limit order with a supplied price carries tag 44; a
Market order (even with a supplied price) does not. -/
theorem newOrderSingle_price_tag_witness :
    "44" ∈ (FixEngineAdapter.newOrderSingleTags
      ⟨"C1", "IBM", .Buy, 100, .Limit, some 50, some "T", none, none, none, none, none,
        none, none⟩ "TT").map Prod.fst ∧
    "44" ∉ (FixEngineAdapter.newOrderSingleTags
      ⟨"C2", "IBM", .Sell, 100, .Market, some 50, some "T", none, none, none, none, none,
        none, none⟩ "TT").map Prod.fst := by
  constructor
  · exact (newOrderSingle_price_tag
      ⟨"C1", "IBM", .Buy, 100, .Limit, some 50, some "T", none, none, none, none, none,
        none, none⟩ "TT").mpr ⟨rfl, by decide⟩
  · intro hmem
    exact ((newOrderSingle_price_tag
      ⟨"C2", "IBM", .Sell, 100, .Market, some 50, some "T", none, none, none, none, none,
        none, none⟩ "TT").mp hmem).2 rfl
